import Mathlib

/-!
Shallow embedding of `src/main.go` (package main): a Go demonstration of
cooperative cancellation via `context.WithCancelCause`.  The file contains two
program variants: the cause-reporting one (`leakyCauldron`, `hogwarts`, `main`)
and the earlier one (`leakyWorker`, `safeWorker`).

Machine model:
  * the cancellable context is a value `CancelCtx` holding the `triggered`
    flag and the recorded cause; `cancel` is the trigger handle returned by
    `context.WithCancelCause`;
  * the workers' `for { select { ... } }` loops are embedded as recursive
    functions over an explicit schedule (the sequence of select outcomes),
    and - for timed claims - as deterministic timed runs driven by the
    ticker period and the trigger instant;
  * console writes become events in the produced trace.
-/

namespace ContextDemo

/-- Go `error` values that appear in the program are plain strings here. -/
abbrev Err := String

/-- The error `context.Canceled`, which `ctx.Err()` returns once the context
is cancelled and which `context.Cause` reports when `cancel(nil)` was used. -/
def contextCanceled : Err := "context canceled"

/-- State of the cancellable context created by
`context.WithCancelCause(context.Background())` (main.go line 56).
`triggered` is whether the `Done` channel has been closed; `cause` is the
recorded cause (set exactly once, at the first effective `cancel` call). -/
structure CancelCtx where
  triggered : Bool
  cause : Option Err
deriving DecidableEq, Repr

/-- A fresh signal as returned by `context.WithCancelCause`: untriggered,
no cause recorded. -/
def createSignal : CancelCtx := ⟨false, none⟩

/-- `context.Background()`: a context that is never cancellable.  As a value
it is an untriggered signal on which the program never calls any trigger. -/
def background : CancelCtx := ⟨false, none⟩

/-- The `cancel` function of `context.WithCancelCause`: the first call closes
the `Done` channel and records the cause (`context.Canceled` when the supplied
cause is `nil`); every later call is a no-op. -/
def cancel (ctx : CancelCtx) (c : Option Err) : CancelCtx :=
  if ctx.triggered then ctx
  else { triggered := true, cause := some (c.getD contextCanceled) }

/-- A sequence of `cancel` calls applied in order. -/
def cancelMany (ctx : CancelCtx) : List (Option Err) → CancelCtx
  | [] => ctx
  | c :: rest => cancelMany (cancel ctx c) rest

/-- `isTriggered` / "is the `Done` channel closed": non-blocking query. -/
def isTriggered (ctx : CancelCtx) : Bool := ctx.triggered

/-- `ctx.Err()` (main.go line 41): `context.Canceled` once cancelled,
`nil` before. -/
def ctxErr (ctx : CancelCtx) : Option Err :=
  if ctx.triggered then some contextCanceled else none

/-- `context.Cause(ctx)` (main.go line 44): the recorded cause once
cancelled, `nil` before. -/
def contextCause (ctx : CancelCtx) : Option Err :=
  if ctx.triggered then ctx.cause else none

/-- `awaitSignal`, i.e. a `<-ctx.Done()` receive: it returns immediately
exactly when the channel is already closed. -/
def awaitReturnsImmediately (ctx : CancelCtx) : Bool := ctx.triggered

/-! ## The cooperative workers

`hogwarts` (main.go lines 24-50) and `safeWorker` (lines 109-131) loop over a
`select` with two cases: the 200ms ticker and `<-ctx.Done()`.  We embed the
loop as a recursive function over the schedule of select outcomes; the empty
schedule cuts the (still running) loop off without the function returning, so
the deferred `ticker.Stop()` has not run in that case. -/

/-- Outcome of one `select` iteration: the ticker case or the `Done` case. -/
inductive Sel
  | tick
  | done
deriving DecidableEq, Repr

/-- Ticker period of `hogwarts`: `time.NewTicker(200 * time.Millisecond)`
(main.go line 27). -/
def hogwartsTickerMs : Nat := 200

/-- Ticker period of `safeWorker`: `time.NewTicker(200 * time.Millisecond)`
(main.go line 114). -/
def safeWorkerTickerMs : Nat := 200

/-- Sleep period of the leaky workers: `time.Sleep(500 * time.Millisecond)`
(main.go lines 17 and 101). -/
def leakySleepMs : Nat := 500

/-- Observable events of `hogwarts`: a unit of work (line 34), or the
cancellation observation (lines 38-45), which carries the values printed:
`ctx.Err()` and `context.Cause(ctx)`. -/
inductive CoopEvent
  | work
  | cancelObserved (err : Option Err) (cause : Option Err)
deriving DecidableEq, Repr

/-- Observable events of `safeWorker`: a unit of work (line 121), or the
cancellation observation (lines 125-127), which carries only `ctx.Err()`. -/
inductive SafeEvent
  | work
  | cancelObserved (err : Option Err)
deriving DecidableEq, Repr

/-- Result of running a worker loop on a finite schedule: the emitted events,
whether the function returned, and whether the deferred `ticker.Stop()` ran
(it runs exactly when the function returns). -/
structure CoopResult where
  events : List CoopEvent
  terminated : Bool
  tickerStopped : Bool
deriving DecidableEq, Repr

/-- Same, for `safeWorker`. -/
structure SafeResult where
  events : List SafeEvent
  terminated : Bool
  tickerStopped : Bool
deriving DecidableEq, Repr

/-- The loop of `hogwarts` (main.go lines 30-49): on the ticker case emit a
work event and iterate; on the `Done` case emit the cancellation observation
carrying `ctx.Err()` and `context.Cause(ctx)` and return (the deferred
`ticker.Stop()` of line 28 then runs). -/
def hogwarts (ctx : CancelCtx) : List Sel → CoopResult
  | [] => ⟨[], false, false⟩
  | Sel.tick :: rest =>
    let r := hogwarts ctx rest
    ⟨CoopEvent.work :: r.events, r.terminated, r.tickerStopped⟩
  | Sel.done :: _ =>
    ⟨[CoopEvent.cancelObserved (ctxErr ctx) (contextCause ctx)], true, true⟩

/-- The loop of `safeWorker` (main.go lines 117-130): identical shape, but
the cancellation observation reports only `ctx.Err()`. -/
def safeWorker (ctx : CancelCtx) : List Sel → SafeResult
  | [] => ⟨[], false, false⟩
  | Sel.tick :: rest =>
    let r := safeWorker ctx rest
    ⟨SafeEvent.work :: r.events, r.terminated, r.tickerStopped⟩
  | Sel.done :: _ =>
    ⟨[SafeEvent.cancelObserved (ctxErr ctx)], true, true⟩

/-- Forgetting the extra cause report turns a `hogwarts` event into the
corresponding `safeWorker` event. -/
def eraseCause : CoopEvent → SafeEvent
  | CoopEvent.work => SafeEvent.work
  | CoopEvent.cancelObserved e _ => SafeEvent.cancelObserved e

/-! ## The non-cooperative workers

`leakyCauldron` (main.go lines 12-20) and `leakyWorker` (lines 94-105) are
`for { time.Sleep(500ms); work }` loops with no exit: a single-state machine.
-/

/-- The one control state of the leaky loop; the type has no other
constructor because the loop body has no `return`, `break` or exit path. -/
inductive LeakyState
  | RUNNING
deriving DecidableEq, Repr

/-- Event of the leaky workers: the `Doing work...` print. -/
inductive LeakyEvent
  | work
deriving DecidableEq, Repr

/-- One iteration of the `leakyCauldron` body (main.go lines 16-19): sleep,
emit a work event, stay in the loop.  The context argument is received
(line 12) but never consulted. -/
def leakyStep (ctx : CancelCtx) (s : LeakyState) : LeakyState × LeakyEvent :=
  (LeakyState.RUNNING, LeakyEvent.work)

/-- `n` iterations of `leakyCauldron`, observed from the start state:
reached control state and the accumulated event trace. -/
def leakyRun (ctx : CancelCtx) : Nat → LeakyState × List LeakyEvent
  | 0 => (LeakyState.RUNNING, [])
  | n + 1 =>
    let p := leakyRun ctx n
    let q := leakyStep ctx p.1
    (q.1, p.2 ++ [q.2])

/-! ## Timed runs

For the timed scenario claims, both loops are driven by real instants (in
milliseconds from worker start).  The `hogwarts` ticker fires at
`200*(k+1)`; the `Done` channel becomes ready at the trigger instant.  In
iteration `k` the select takes whichever source is ready first.  (An exact
tie between a tick and the trigger is a race in the source; the trigger
instants analysed here are not multiples of the period, so no tie arises.) -/

/-- Timed run of the `hogwarts` loop: `trigger` is the instant the context
is cancelled (`none` when it never is), `fuel` bounds the number of
iterations observed, `k` counts completed iterations.  Each event is paired
with its instant. -/
def hogwartsTimed (ctx : CancelCtx) (trigger : Option Nat) :
    Nat → Nat → List (Nat × CoopEvent)
  | 0, _ => []
  | fuel + 1, k =>
    let tickT := hogwartsTickerMs * (k + 1)
    match trigger with
    | none => (tickT, CoopEvent.work) :: hogwartsTimed ctx trigger fuel (k + 1)
    | some tr =>
      if tickT < tr then
        (tickT, CoopEvent.work) :: hogwartsTimed ctx trigger fuel (k + 1)
      else
        [(tr, CoopEvent.cancelObserved (ctxErr ctx) (contextCause ctx))]

/-- Timed run of the `leakyCauldron` loop over the observation window
`[0, endT]`: a work event fires at each multiple of 500ms, regardless of the
context. -/
def leakyCauldronTimed (ctx : CancelCtx) (endT : Nat) :
    Nat → Nat → List Nat
  | 0, _ => []
  | fuel + 1, k =>
    let t := leakySleepMs * (k + 1)
    if t ≤ endT then t :: leakyCauldronTimed ctx endT fuel (k + 1) else []

/-! ## The controller (`main`, main.go lines 52-82) -/

/-- The cause error built at main.go line 70:
`fmt.Errorf("Voldemort is here: all tasks stopped")`. -/
def causeError : Err := "Voldemort is here: all tasks stopped"

/-- Actions `main` performs, in the order the source performs them.
Print statements are narration and are not modelled. -/
inductive Action
  | createSig
  | startLeaky
  | startHogwarts
  | sleep (ms : Nat)
  | cancelCall (cause : Option Err)
  | exitProg
deriving DecidableEq, Repr

/-- The action sequence of `main` (main.go lines 56-82): create the
cancellable context, start `leakyCauldron` with `context.Background()`,
start `hogwarts` with the live context, sleep 1500ms, call
`cancel(causeError)`, sleep 2000ms, and on function exit run the deferred
`cancel(nil)` (line 59) before the process exits. -/
def mainActions : List Action :=
  [ Action.createSig,
    Action.startLeaky,
    Action.startHogwarts,
    Action.sleep 1500,
    Action.cancelCall (some causeError),
    Action.sleep 2000,
    Action.cancelCall none,
    Action.exitProg ]

/-- Effect of one controller action on the controller's context value. -/
def applyAction (ctx : CancelCtx) : Action → CancelCtx
  | Action.cancelCall c => cancel ctx c
  | _ => ctx

/-- Context state after running a list of actions. -/
def runActions (ctx : CancelCtx) : List Action → CancelCtx
  | [] => ctx
  | a :: rest => runActions (applyAction ctx a) rest

/-- Indices (from `i`) of the actions that effectively trigger the signal,
i.e. the `cancel` calls that flip it from untriggered to triggered. -/
def effectiveTriggerIdxs (ctx : CancelCtx) : List Action → Nat → List Nat
  | [], _ => []
  | a :: rest, i =>
    let ctx2 := applyAction ctx a
    if isTriggered ctx = false ∧ isTriggered ctx2 = true then
      i :: effectiveTriggerIdxs ctx2 rest (i + 1)
    else
      effectiveTriggerIdxs ctx2 rest (i + 1)

/-! ## Operation traces on a signal (for the never-triggered case) -/

/-- The operations a holder of the signal may perform: the trigger call, or
one of the non-mutating queries. -/
inductive SignalOp
  | trigger (cause : Option Err)
  | isTriggeredQuery
  | causeQuery
  | awaitQuery
deriving DecidableEq, Repr

/-- Whether an operation is a trigger call. -/
def SignalOp.isTrigger : SignalOp → Bool
  | SignalOp.trigger _ => true
  | _ => false

/-- Effect of one operation on the signal: only `trigger` mutates it. -/
def applyOp (ctx : CancelCtx) : SignalOp → CancelCtx
  | SignalOp.trigger c => cancel ctx c
  | _ => ctx

/-- Signal state after a whole operation trace. -/
def applyOps (ctx : CancelCtx) : List SignalOp → CancelCtx
  | [] => ctx
  | op :: rest => applyOps (applyOp ctx op) rest

/-- Whether a `hogwarts` event is the cancellation observation. -/
def CoopEvent.isCancel : CoopEvent → Bool
  | CoopEvent.cancelObserved _ _ => true
  | CoopEvent.work => false

/-- The state used by the concrete witnesses: the signal of `main` after
`cancel(causeError)`. -/
def triggeredCtx : CancelCtx := cancel createSignal (some causeError)

/-! ## The spec scenario (section 8 of the design document)

Create the signal, start the cooperative worker, wait 1500ms, trigger with
cause `"shutdown"`, wait a further 2000ms: the window observed is
`[0, 3500]` ms measured from worker start. -/

/-- The scenario signal after its trigger: cause `"shutdown"`. -/
def shutdownCtx : CancelCtx := cancel createSignal (some "shutdown")

/-- Scenario trigger instant: after the 1500ms warm-up. -/
def scenarioTriggerMs : Nat := 1500

/-- Scenario window end: 1500ms warm-up plus 2000ms observation. -/
def scenarioEndMs : Nat := 3500

/-! ## Helper lemmas on the signal -/

/-- A `cancel` call on an already-triggered signal is a no-op. -/
theorem cancel_of_triggered (ctx : CancelCtx) (c : Option Err)
    (h : ctx.triggered = true) : cancel ctx c = ctx := by
  simp [cancel, h]

/-- Any sequence of `cancel` calls on an already-triggered signal is a no-op. -/
theorem cancelMany_of_triggered (ctx : CancelCtx) (later : List (Option Err))
    (h : ctx.triggered = true) : cancelMany ctx later = ctx := by
  induction later with
  | nil => rfl
  | cons c rest ih => simpa [cancelMany, cancel_of_triggered ctx c h] using ih

/-- The first `cancel` call on a fresh signal records the supplied cause
(defaulted to `context.Canceled` when the cause is `nil`). -/
theorem cancel_of_untriggered (ctx : CancelCtx) (c : Option Err)
    (h : ctx.triggered = false) :
    cancel ctx c = ⟨true, some (c.getD contextCanceled)⟩ := by
  simp [cancel, h]

/-- A trace of non-trigger operations leaves the signal unchanged. -/
theorem applyOps_no_trigger (ctx : CancelCtx) (ops : List SignalOp)
    (h : ∀ op ∈ ops, op.isTrigger = false) : applyOps ctx ops = ctx := by
  induction ops generalizing ctx with
  | nil => rfl
  | cons op rest ih =>
    have hop : op.isTrigger = false := h op (List.mem_cons_self op rest)
    have hrest : ∀ o ∈ rest, o.isTrigger = false := fun o ho => h o (List.mem_cons_of_mem op ho)
    have heq : applyOp ctx op = ctx := by
      cases op with
      | trigger c => simp [SignalOp.isTrigger] at hop
      | isTriggeredQuery => rfl
      | causeQuery => rfl
      | awaitQuery => rfl
    simpa [applyOps, heq] using ih ctx hrest


/-! ## Claim theorems: the signal contract -/

/-- C2: after the controller triggers cancellation with cause `C`
(`cancel(causeError)`, main.go line 72), every subsequent wait on
`ctx.Done()` returns immediately — even after further `cancel` calls — and
`context.Cause(ctx)` returns `C`. -/
theorem c2_trigger_await_immediate_cause_stable
    (ctx : CancelCtx) (C : Err) (later : List (Option Err))
    (h : isTriggered ctx = false) :
    awaitReturnsImmediately (cancelMany (cancel ctx (some C)) later) = true ∧
    contextCause (cancelMany (cancel ctx (some C)) later) = some C := by
  have ht : ctx.triggered = false := h
  have h1 : cancel ctx (some C) = ⟨true, some C⟩ := by
    simpa using cancel_of_untriggered ctx (some C) ht
  rw [h1, cancelMany_of_triggered ⟨true, some C⟩ later rfl]
  exact ⟨rfl, rfl⟩

/-- Witness for C2: the concrete trigger of `main` (cause
`"Voldemort is here: all tasks stopped"`) followed by the deferred
`cancel(nil)`. -/
theorem c2_trigger_await_immediate_cause_stable_witness :
    awaitReturnsImmediately (cancelMany (cancel createSignal (some causeError)) [none]) = true ∧
    contextCause (cancelMany (cancel createSignal (some causeError)) [none]) = some causeError :=
  c2_trigger_await_immediate_cause_stable createSignal causeError [none] (by decide)

/-- C3: the trigger is idempotent — after the first `cancel` call on a fresh
signal, any further sequence of `cancel` calls leaves the signal (and hence
the recorded cause) unchanged; the cause stays the one recorded at the first
call. -/
theorem c3_trigger_idempotent
    (ctx : CancelCtx) (first : Option Err) (later : List (Option Err))
    (h : isTriggered ctx = false) :
    cancelMany (cancel ctx first) later = cancel ctx first ∧
    contextCause (cancelMany (cancel ctx first) later) = some (first.getD contextCanceled) := by
  have ht : ctx.triggered = false := h
  have h1 : cancel ctx first = ⟨true, some (first.getD contextCanceled)⟩ :=
    cancel_of_untriggered ctx first ht
  constructor
  · rw [h1]
    exact cancelMany_of_triggered _ later rfl
  · rw [h1, cancelMany_of_triggered _ later rfl]
    rfl

/-- Witness for C3: in `main`, the deferred `cancel(nil)` (line 59) runs
after `cancel(causeError)` (line 72) and does not change the recorded
cause. -/
theorem c3_trigger_idempotent_witness :
    cancelMany (cancel createSignal (some causeError)) [none] = cancel createSignal (some causeError) ∧
    contextCause (cancelMany (cancel createSignal (some causeError)) [none]) = some causeError :=
  c3_trigger_idempotent createSignal (some causeError) [none] (by decide)

/-- C7: triggering with no cause (`cancel(nil)`, the deferred call of
main.go line 59) records the `context.Canceled` sentinel: `context.Cause`
yields it, never an absent value. -/
theorem c7_nil_cause_yields_default_sentinel
    (ctx : CancelCtx) (h : isTriggered ctx = false) :
    contextCause (cancel ctx none) = some contextCanceled ∧
    contextCause (cancel ctx none) ≠ none := by
  have h1 : cancel ctx none = ⟨true, some contextCanceled⟩ :=
    cancel_of_untriggered ctx none h
  rw [h1]
  exact ⟨rfl, by simp [contextCause]⟩

/-- Witness for C7: `cancel(nil)` on the freshly created signal. -/
theorem c7_nil_cause_yields_default_sentinel_witness :
    contextCause (cancel createSignal none) = some contextCanceled ∧
    contextCause (cancel createSignal none) ≠ none :=
  c7_nil_cause_yields_default_sentinel createSignal (by decide)

/-- C8: on a signal on which `trigger` is never called — such as the
`context.Background()` value handed to `leakyCauldron` (main.go line 62) —
`isTriggered` returns false after any trace of (non-trigger) operations:
its done indication never fires. -/
theorem c8_untriggered_stays_untriggered
    (ops : List SignalOp) (h : ∀ op ∈ ops, op.isTrigger = false) :
    isTriggered (applyOps background ops) = false := by
  rw [applyOps_no_trigger background ops h]
  rfl

/-- Witness for C8: a concrete trace of queries on the background signal. -/
theorem c8_untriggered_stays_untriggered_witness :
    isTriggered (applyOps background
      [SignalOp.isTriggeredQuery, SignalOp.causeQuery, SignalOp.awaitQuery,
       SignalOp.isTriggeredQuery]) = false :=
  c8_untriggered_stays_untriggered
    [SignalOp.isTriggeredQuery, SignalOp.causeQuery, SignalOp.awaitQuery,
     SignalOp.isTriggeredQuery] (by decide)

/-! ## Claim theorems: the workers -/

/-- In any `hogwarts` run, a cancellation observation is the last event of
the trace, the function has returned, the deferred `ticker.Stop()` has run,
and the event carries `ctx.Err()` and `context.Cause(ctx)`. -/
theorem hogwarts_cancel_last (ctx : CancelCtx) (sched : List Sel) (e c : Option Err)
    (h : CoopEvent.cancelObserved e c ∈ (hogwarts ctx sched).events) :
    (hogwarts ctx sched).events.getLast? = some (CoopEvent.cancelObserved e c) ∧
    (hogwarts ctx sched).terminated = true ∧
    (hogwarts ctx sched).tickerStopped = true ∧
    e = ctxErr ctx ∧ c = contextCause ctx := by
  induction sched with
  | nil => simp [hogwarts] at h
  | cons s rest ih =>
    cases s with
    | tick =>
      have hev : (hogwarts ctx (Sel.tick :: rest)).events
          = CoopEvent.work :: (hogwarts ctx rest).events := rfl
      rw [hev] at h
      rcases List.mem_cons.mp h with h1 | h2
      · simp at h1
      · obtain ⟨hlast, hterm, hstop, he, hc⟩ := ih h2
        refine ⟨?_, hterm, hstop, he, hc⟩
        rw [hev]
        cases hrev : (hogwarts ctx rest).events with
        | nil => rw [hrev] at h2; simp at h2
        | cons a l =>
          rw [hrev] at hlast
          rw [List.getLast?_cons_cons]
          exact hlast
    | done =>
      have hev : (hogwarts ctx (Sel.done :: rest)).events
          = [CoopEvent.cancelObserved (ctxErr ctx) (contextCause ctx)] := rfl
      rw [hev] at h
      simp at h
      obtain ⟨he, hc⟩ := h
      subst he; subst hc
      exact ⟨by rw [hev]; simp, rfl, rfl, rfl, rfl⟩

/-- Same fact for `safeWorker`. -/
theorem safeWorker_cancel_last (ctx : CancelCtx) (sched : List Sel) (e : Option Err)
    (h : SafeEvent.cancelObserved e ∈ (safeWorker ctx sched).events) :
    (safeWorker ctx sched).events.getLast? = some (SafeEvent.cancelObserved e) ∧
    (safeWorker ctx sched).terminated = true ∧
    (safeWorker ctx sched).tickerStopped = true ∧
    e = ctxErr ctx := by
  induction sched with
  | nil => simp [safeWorker] at h
  | cons s rest ih =>
    cases s with
    | tick =>
      have hev : (safeWorker ctx (Sel.tick :: rest)).events
          = SafeEvent.work :: (safeWorker ctx rest).events := rfl
      rw [hev] at h
      rcases List.mem_cons.mp h with h1 | h2
      · simp at h1
      · obtain ⟨hlast, hterm, hstop, he⟩ := ih h2
        refine ⟨?_, hterm, hstop, he⟩
        rw [hev]
        cases hrev : (safeWorker ctx rest).events with
        | nil => rw [hrev] at h2; simp at h2
        | cons a l =>
          rw [hrev] at hlast
          rw [List.getLast?_cons_cons]
          exact hlast
    | done =>
      have hev : (safeWorker ctx (Sel.done :: rest)).events
          = [SafeEvent.cancelObserved (ctxErr ctx)] := rfl
      rw [hev] at h
      simp at h
      subst h
      exact ⟨by rw [hev]; simp, rfl, rfl, rfl⟩

/-- C1: for both cooperative workers (`hogwarts` and `safeWorker`), in every
run: once the cancellation event is observed, the recorded cause (for
`hogwarts`) and error are reported, the ticker is released, the loop
terminates, and no event — in particular no work event — follows the
cancellation observation (it is the last event of the trace). -/
theorem c1_zero_work_after_cancel (ctx : CancelCtx) (sched : List Sel) :
    (∀ e c, CoopEvent.cancelObserved e c ∈ (hogwarts ctx sched).events →
      (hogwarts ctx sched).events.getLast? = some (CoopEvent.cancelObserved e c) ∧
      (hogwarts ctx sched).terminated = true ∧
      (hogwarts ctx sched).tickerStopped = true ∧
      e = ctxErr ctx ∧ c = contextCause ctx) ∧
    (∀ e, SafeEvent.cancelObserved e ∈ (safeWorker ctx sched).events →
      (safeWorker ctx sched).events.getLast? = some (SafeEvent.cancelObserved e) ∧
      (safeWorker ctx sched).terminated = true ∧
      (safeWorker ctx sched).tickerStopped = true ∧
      e = ctxErr ctx) :=
  ⟨fun e c h => hogwarts_cancel_last ctx sched e c h,
   fun e h => safeWorker_cancel_last ctx sched e h⟩

/-- Witness for C1: a run doing one unit of work and then observing the
cancellation triggered with `causeError`. -/
theorem c1_zero_work_after_cancel_witness :
    ((hogwarts triggeredCtx [Sel.tick, Sel.done]).events.getLast? =
        some (CoopEvent.cancelObserved (some contextCanceled) (some causeError)) ∧
      (hogwarts triggeredCtx [Sel.tick, Sel.done]).terminated = true ∧
      (hogwarts triggeredCtx [Sel.tick, Sel.done]).tickerStopped = true ∧
      some contextCanceled = ctxErr triggeredCtx ∧
      some causeError = contextCause triggeredCtx) ∧
    ((safeWorker triggeredCtx [Sel.tick, Sel.done]).events.getLast? =
        some (SafeEvent.cancelObserved (some contextCanceled)) ∧
      (safeWorker triggeredCtx [Sel.tick, Sel.done]).terminated = true ∧
      (safeWorker triggeredCtx [Sel.tick, Sel.done]).tickerStopped = true ∧
      some contextCanceled = ctxErr triggeredCtx) :=
  ⟨(c1_zero_work_after_cancel triggeredCtx [Sel.tick, Sel.done]).1
      (some contextCanceled) (some causeError) (by decide),
   (c1_zero_work_after_cancel triggeredCtx [Sel.tick, Sel.done]).2
      (some contextCanceled) (by decide)⟩

/-- The event-trace length of `leakyRun` equals the number of iterations. -/
theorem leakyRun_length (ctx : CancelCtx) (n : Nat) :
    (leakyRun ctx n).2.length = n := by
  induction n with
  | zero => rfl
  | succ k ih => simp [leakyRun, ih]

/-- C4: the non-cooperative worker has the single control state `RUNNING`
with no transition out: after any number of iterations it is still
`RUNNING`, and its work-event count (one event per iteration) strictly
increases from each iteration to the next, for every context — triggered
or not. -/
theorem c4_leaky_runs_forever (ctx : CancelCtx) (n : Nat) :
    (leakyRun ctx n).1 = LeakyState.RUNNING ∧
    (leakyRun ctx n).2.length = n ∧
    (leakyRun ctx n).2.length < (leakyRun ctx (n + 1)).2.length ∧
    (leakyStep ctx (leakyRun ctx n).1).1 = LeakyState.RUNNING := by
  refine ⟨?_, leakyRun_length ctx n, ?_, rfl⟩
  · cases h : (leakyRun ctx n).1
    rfl
  · rw [leakyRun_length ctx n, leakyRun_length ctx (n + 1)]
    exact Nat.lt_succ_self n

/-- C9: the non-cooperative worker cannot observe the controller's
cancellation: its run — both the iteration-counted trace and the timed
trace over any observation window — is identical for any two context
values, in particular for the background context it actually holds versus
any (cancelled, with any cause) controller context. -/
theorem c9_leaky_run_context_independent
    (ctx1 ctx2 : CancelCtx) (n fuel k endT : Nat) :
    leakyRun ctx1 n = leakyRun ctx2 n ∧
    leakyCauldronTimed ctx1 endT fuel k = leakyCauldronTimed ctx2 endT fuel k := by
  constructor
  · induction n with
    | zero => rfl
    | succ m ih => simp [leakyRun, leakyStep, ih]
  · induction fuel generalizing k with
    | zero => rfl
    | succ f ih => simp [leakyCauldronTimed, ih]

/-- C10: `safeWorker` and `hogwarts` are behaviourally equivalent up to
cause reporting: on every context and schedule, the `safeWorker` trace is
the `hogwarts` trace with the `context.Cause` report erased, the
termination and ticker-release behaviour coincide, and the two tickers use
the same 200ms period. -/
theorem c10_safeWorker_refines_hogwarts (ctx : CancelCtx) (sched : List Sel) :
    (safeWorker ctx sched).events = (hogwarts ctx sched).events.map eraseCause ∧
    (safeWorker ctx sched).terminated = (hogwarts ctx sched).terminated ∧
    (safeWorker ctx sched).tickerStopped = (hogwarts ctx sched).tickerStopped ∧
    safeWorkerTickerMs = hogwartsTickerMs := by
  induction sched with
  | nil => exact ⟨rfl, rfl, rfl, rfl⟩
  | cons s rest ih =>
    cases s with
    | tick =>
      obtain ⟨hev, hterm, hstop, _⟩ := ih
      refine ⟨?_, hterm, hstop, rfl⟩
      show SafeEvent.work :: (safeWorker ctx rest).events
          = (CoopEvent.work :: (hogwarts ctx rest).events).map eraseCause
      rw [List.map_cons, hev]
      rfl
    | done => exact ⟨rfl, rfl, rfl, rfl⟩

/-! ## Claim theorems: the controller and the demonstration scenario -/

/-- C5: `main` performs, in this order: create the signal, start the leaky
worker, start the cooperative worker, sleep the 1500ms warm-up, call
`cancel` with the explicit cause, sleep the 2000ms observation window, and
exit last; the signal is effectively triggered exactly once — at the
`cancel(causeError)` call, index 4, after both workers were started — the
deferred `cancel(nil)` being a no-op on the already-triggered signal; the
final signal state carries the explicit cause. -/
theorem c5_controller_protocol :
    mainActions.indexOf Action.createSig = 0 ∧
    mainActions.indexOf Action.startLeaky = 1 ∧
    mainActions.indexOf Action.startHogwarts = 2 ∧
    mainActions.indexOf (Action.sleep 1500) = 3 ∧
    mainActions.indexOf (Action.cancelCall (some causeError)) = 4 ∧
    mainActions.indexOf (Action.sleep 2000) = 5 ∧
    mainActions.indexOf Action.exitProg = mainActions.length - 1 ∧
    effectiveTriggerIdxs createSignal mainActions 0 = [4] ∧
    runActions createSignal mainActions = ⟨true, some causeError⟩ := by
  decide

/-- C6: in the spec scenario (signal triggered at 1500ms with cause
`"shutdown"`, window observed to 3500ms), the cooperative worker's timed
trace contains exactly one cancellation-observed event, it carries cause
`"shutdown"` and instant 1500, every work event lies strictly before the
trigger instant, while the non-cooperative worker keeps producing a work
event every 500ms through the whole window. -/
theorem c6_demo_scenario :
    (hogwartsTimed shutdownCtx (some scenarioTriggerMs) 18 0).countP
        (fun p => CoopEvent.isCancel p.2) = 1 ∧
    ((scenarioTriggerMs,
        CoopEvent.cancelObserved (some contextCanceled) (some "shutdown")) ∈
      hogwartsTimed shutdownCtx (some scenarioTriggerMs) 18 0) ∧
    (∀ p ∈ hogwartsTimed shutdownCtx (some scenarioTriggerMs) 18 0,
        p.2 = CoopEvent.work → p.1 < scenarioTriggerMs) ∧
    leakyCauldronTimed background scenarioEndMs 18 0 =
      [leakySleepMs * 1, leakySleepMs * 2, leakySleepMs * 3, leakySleepMs * 4,
       leakySleepMs * 5, leakySleepMs * 6, leakySleepMs * 7] := by
  decide

end ContextDemo
